import Mathlib

/-!
Verification of the alic3 LC-3 toolchain (assembler, parser, emulator).

This file gives a shallow embedding, in Lean, of the Rust sources
`src/bit_twiddling.rs`, `src/opcode.rs`, `src/emulator.rs`,
`src/asm_parser.rs` and `src/assembler.rs`, and proves properties of the
embedded definitions.  Machine words (`u16`) are modelled as `Nat` with
explicit `% 65536` where the source wraps; signed views (`i16`) are
modelled as `Int`.  Fallible Rust functions returning `Result` are
modelled with `Except String`; a Rust panic is modelled with `Option`
(`none` = panic).  Rust methods that mutate `&mut self` are modelled as
functions returning the updated state.

The emulator is embedded in its default configuration, i.e. with the
`third_edition` cargo feature disabled: the `cfg(not(feature =
"third_edition"))` blocks of `emulator.rs` are active and the
`cfg(feature = "third_edition")` blocks are absent.
-/

set_option maxRecDepth 10000

deriving instance DecidableEq for Except

namespace Alic3

/-- 16-bit wrap-around addition (`u16::wrapping_add`); arguments are 16-bit words. -/
def wrapping_add (x y : Nat) : Nat := (x + y) % 65536

/-- 16-bit wrap-around subtraction (`u16::wrapping_sub`); arguments are 16-bit words. -/
def wrapping_sub (x y : Nat) : Nat := (x + 65536 - y % 65536) % 65536

/-- The `u16` bit pattern of an `i16` value (Rust `as u16` on a signed value). -/
def u16_of_int (n : Int) : Nat := (n % 65536).toNat

/-- The `i16` reading of a `u16` bit pattern (Rust `as i16` on an unsigned value). -/
def toSigned16 (n : Nat) : Int :=
  if n % 65536 < 32768 then (n % 65536 : Int) else (n % 65536 : Int) - 65536

/-- `get_bits::<START, END>(n)` from `src/bit_twiddling.rs`:
`(n >> START) & (u16::MAX >> (15 - (END - START)))`.  For `START ≤ END ≤ 15`
(the source asserts this) the mask equals `2 ^ (END - START + 1) - 1`, so the
masking is written as a remainder. -/
def get_bits (START END : Nat) (n : Nat) : Nat :=
  (n >>> START) % 2 ^ (END - START + 1)

/-- `sign_extend::<NUM_BITS>(n)` from `src/bit_twiddling.rs`:
`(n << (16 - NUM_BITS)) >> (16 - NUM_BITS)` on `i16`, an arithmetic shift
pair that sign-extends the low `NUM_BITS` bits of `n`'s bit pattern
(`1 ≤ NUM_BITS ≤ 16`; the source asserts `NUM_BITS <= 16`). -/
def sign_extend (NUM_BITS : Nat) (n : Int) : Int :=
  let low := (n % 65536).toNat % 2 ^ NUM_BITS
  if low < 2 ^ (NUM_BITS - 1) then (low : Int) else (low : Int) - 2 ^ NUM_BITS

/-- `truncate::<BIT_WIDTH>(n)` from `src/bit_twiddling.rs`.  Fails unless the
sign extension of the low `BIT_WIDTH` bits of `n` gives back `n as i16`;
on success returns `n & !(u16::MAX << BIT_WIDTH)`, which for
`BIT_WIDTH ≤ 15` is the low `BIT_WIDTH` bits of `n`. -/
def truncate (BIT_WIDTH : Nat) (n : Nat) : Except String Nat :=
  let extended := sign_extend BIT_WIDTH (toSigned16 n)
  if extended ≠ toSigned16 n then .error "does not fit"
  else .ok (n % 2 ^ BIT_WIDTH)

/-- The 16 LC-3 opcodes, from `src/opcode.rs`. -/
inductive Opcode
  | Br
  | Add
  | Ld
  | St
  | Jsr
  | And
  | Ldr
  | Str
  | Rti
  | Not
  | Ldi
  | Sti
  | Jmp
  | Reserved
  | Lea
  | Trap
deriving DecidableEq

/-- `Opcode::from_int` from `src/opcode.rs`.  The source panics on inputs
above 15; every caller passes a 4-bit value, so the wildcard arm below is
never reached in this development. -/
def Opcode.from_int (i : Nat) : Opcode :=
  match i with
  | 0 => .Br
  | 1 => .Add
  | 2 => .Ld
  | 3 => .St
  | 4 => .Jsr
  | 5 => .And
  | 6 => .Ldr
  | 7 => .Str
  | 8 => .Rti
  | 9 => .Not
  | 10 => .Ldi
  | 11 => .Sti
  | 12 => .Jmp
  | 13 => .Reserved
  | 14 => .Lea
  | _ => .Trap

/-- `Opcode::to_int` from `src/opcode.rs`. -/
def Opcode.to_int (o : Opcode) : Nat :=
  match o with
  | .Br => 0
  | .Add => 1
  | .Ld => 2
  | .St => 3
  | .Jsr => 4
  | .And => 5
  | .Ldr => 6
  | .Str => 7
  | .Rti => 8
  | .Not => 9
  | .Ldi => 10
  | .Sti => 11
  | .Jmp => 12
  | .Reserved => 13
  | .Lea => 14
  | .Trap => 15

/-- One event on the display sink: a byte written via `write_u8`, or a
`flush` call.  The emulator's `Output: Write` sink is modelled as the list
of these events in order. -/
inductive OutEvent
  | byte (b : Nat)
  | flush
deriving DecidableEq

/-- The `KeyboardIO` buffer of `src/emulator.rs`.  The non-blocking byte
source `stdin` is modelled as the list of bytes it will deliver; an empty
list means `read_u8` fails (no data / EOF). -/
structure KeyboardIo where
  need_more_input : Bool
  kbsr : Bool
  kbdr : Nat
  stdin : List Nat
deriving DecidableEq

/-- `KeyboardIO::new`. -/
def KeyboardIo.new (stdin : List Nat) : KeyboardIo :=
  { need_more_input := true, kbsr := false, kbdr := 0, stdin := stdin }

/-- `KeyboardIO::update_input`: attempt one byte read; on success store it
in `kbdr`, set `kbsr` and clear `need_more_input`; on failure clear `kbsr`. -/
def KeyboardIo.update_input (k : KeyboardIo) : KeyboardIo :=
  match k.stdin with
  | keycode :: rest =>
    { k with kbdr := keycode, kbsr := true, need_more_input := false, stdin := rest }
  | [] => { k with kbsr := false }

/-- `KeyboardIO::read_kbsr`: probe for input if needed, then report
`0x8000` iff a key is buffered. -/
def KeyboardIo.read_kbsr (k : KeyboardIo) : Nat × KeyboardIo :=
  let k := if k.need_more_input then k.update_input else k
  (if k.kbsr then 0x8000 else 0x0000, k)

/-- `KeyboardIO::read_kbdr`: probe for input if needed, then return the
buffered keycode and request another byte for the next probe. -/
def KeyboardIo.read_kbdr (k : KeyboardIo) : Nat × KeyboardIo :=
  let k := if k.need_more_input then k.update_input else k
  (k.kbdr, { k with need_more_input := true })

/-- Memory addresses of the memory-mapped registers (`MemRegisters`). -/
def MemRegisters.PSR : Nat := 0xFFFC
def MemRegisters.MCR : Nat := 0xFFFE
def MemRegisters.KBSR : Nat := 0xFE00
def MemRegisters.KBDR : Nat := 0xFE02
def MemRegisters.DSR : Nat := 0xFE04
def MemRegisters.DDR : Nat := 0xFE06

/-- Pointwise update of a function modelling an array. -/
def upd (f : Nat → Nat) (k v : Nat) : Nat → Nat :=
  fun x => if x = k then v else f x

/-- The `Memory` struct of `src/emulator.rs`: the 65536-word array, the
keyboard buffer (interior-mutable in the source), and the display sink. -/
structure Memory where
  memory : Nat → Nat
  keyboard_io : KeyboardIo
  stdout : List OutEvent

/-- `Memory::get`.  Reading `KBSR`/`KBDR` consults (and mutates) the
keyboard buffer, so the updated `Memory` is returned alongside the value. -/
def Memory.get (m : Memory) (addr : Nat) : Nat × Memory :=
  if addr = MemRegisters.KBSR then
    let r := m.keyboard_io.read_kbsr
    (r.1, { m with keyboard_io := r.2 })
  else if addr = MemRegisters.KBDR then
    let r := m.keyboard_io.read_kbdr
    (r.1, { m with keyboard_io := r.2 })
  else if addr = MemRegisters.DSR then
    -- The display is always ready for more data
    (0x8000, m)
  else (m.memory addr, m)

/-- `Memory::set`.  Writes to the read-only device registers are ignored;
a write to `DDR` emits to the display sink (a `'\r'` first when the value
equals the newline character, then the low byte, then a flush) and leaves
the memory array untouched; any other write updates the array. -/
def Memory.set (m : Memory) (addr value : Nat) : Memory :=
  if addr = MemRegisters.KBSR ∨ addr = MemRegisters.KBDR ∨ addr = MemRegisters.DSR then m
  else if addr = MemRegisters.DDR then
    { m with stdout := m.stdout
        ++ (if value = 10 then [OutEvent.byte 13] else [])
        ++ [OutEvent.byte (value % 256), OutEvent.flush] }
  else { m with memory := upd m.memory addr value }

/-- The `Cpu` struct of `src/emulator.rs`. -/
structure Cpu where
  registers : Nat → Nat
  memory : Memory
  pc : Nat
  saved_usp : Nat
  saved_ssp : Nat

/-- `Cpu::new`: zeroed registers and memory except `MCR = 0xFFFF`, with the
initial saved stack pointers. -/
def Cpu.new (stdin : List Nat) : Cpu :=
  { registers := fun _ => 0
    memory := { memory := upd (fun _ => 0) MemRegisters.MCR 0xFFFF
                keyboard_io := KeyboardIo.new stdin
                stdout := [] }
    pc := 0
    saved_ssp := 0x3000
    saved_usp := 0xFE00 }

/-- `Cpu::address_accessible`: every address is accessible in supervisor
mode; in user mode only `0x3000..=0xFDFF`.  `PSR` is not a device register,
so reading it through `Memory::get` has no side effect and the updated
memory can be discarded. -/
def Cpu.address_accessible (cpu : Cpu) (addr : Nat) : Bool :=
  if get_bits 15 15 (cpu.memory.get MemRegisters.PSR).1 = 0 then true
  else decide (0x3000 ≤ addr) && decide (addr ≤ 0xFDFF)

/-- `Cpu::enter_supervisor_mode`: save the old `PSR`; when coming from user
mode swap to the supervisor stack and clear `PSR[15]` (`& !(1 << 15)` is
`& 0x7FFF`); then push the old `PSR` and the old `PC` (decrement before
store; the source decrements with `-=` on `u16`, modelled as wrapping). -/
def Cpu.enter_supervisor_mode (cpu : Cpu) : Cpu :=
  let old_psr := (cpu.memory.get MemRegisters.PSR).1
  let cpu :=
    if get_bits 15 15 (cpu.memory.get MemRegisters.PSR).1 = 1 then
      let cpu := { cpu with
        saved_usp := cpu.registers 6
        registers := upd cpu.registers 6 cpu.saved_ssp }
      { cpu with
          memory := cpu.memory.set MemRegisters.PSR
            ((cpu.memory.get MemRegisters.PSR).1 &&& 0x7FFF) }
    else cpu
  let r6 := wrapping_sub (cpu.registers 6) 1
  let cpu := { cpu with registers := upd cpu.registers 6 r6 }
  let cpu := { cpu with memory := cpu.memory.set r6 old_psr }
  let r6 := wrapping_sub r6 1
  let cpu := { cpu with registers := upd cpu.registers 6 r6 }
  { cpu with memory := cpu.memory.set r6 cpu.pc }

/-- `Cpu::handle_exception`: enter supervisor mode and jump to
`0x0100 | vector`. -/
def Cpu.handle_exception (cpu : Cpu) (exception_vector : Nat) : Cpu :=
  let cpu := cpu.enter_supervisor_mode
  { cpu with pc := exception_vector ||| 0x0100 }

/-- `Cpu::get_reg_hi`: the register named by bits 9..11 of the instruction. -/
def Cpu.get_reg_hi (cpu : Cpu) (instruction : Nat) : Nat :=
  cpu.registers (get_bits 9 11 instruction)

/-- `Cpu::get_reg_lo`: the register named by bits 6..8 of the instruction. -/
def Cpu.get_reg_lo (cpu : Cpu) (instruction : Nat) : Nat :=
  cpu.registers (get_bits 6 8 instruction)

/-- The common tail of the `Add | And | Ld | Ldi | Ldr | Lea | Not` arm of
`Cpu::execute_instruction`: write `result` to the destination register and,
unless `update_cc` is false (the `Lea` early return compiled in by
`cfg(not(feature = "third_edition"))`), replace `PSR[2:0]` by the condition
bits for the signum of `result` (`& !0b111` is `& 0xFFF8`). -/
def Cpu.set_result_and_cc (cpu : Cpu) (instruction result : Nat) (update_cc : Bool) : Cpu :=
  let cpu := { cpu with registers := upd cpu.registers (get_bits 9 11 instruction) result }
  if update_cc then
    let cond : Nat :=
      if toSigned16 result < 0 then 0b100
      else if toSigned16 result = 0 then 0b010
      else 0b001
    { cpu with
        memory := cpu.memory.set MemRegisters.PSR
          (((cpu.memory.get MemRegisters.PSR).1 &&& 0xFFF8) ||| cond) }
  else cpu

/-- `Cpu::execute_instruction::<OP>` from `src/emulator.rs`, in the default
(second-edition) configuration.  Each arm mirrors the corresponding arm of
the source `match`; early `return`s after `handle_exception` become the
corresponding branch results. -/
def Cpu.execute_instruction (cpu : Cpu) (OP : Nat) (instruction : Nat) : Cpu :=
  match Opcode.from_int OP with
  | .Add =>
    let src_value_2 :=
      if get_bits 5 5 instruction = 1 then
        u16_of_int (sign_extend 5 (get_bits 0 4 instruction))
      else cpu.registers (get_bits 0 2 instruction)
    cpu.set_result_and_cc instruction
      (wrapping_add (cpu.get_reg_lo instruction) src_value_2) true
  | .And =>
    let src_value_2 :=
      if get_bits 5 5 instruction = 1 then
        u16_of_int (sign_extend 5 (get_bits 0 4 instruction))
      else cpu.registers (get_bits 0 2 instruction)
    cpu.set_result_and_cc instruction
      ((cpu.get_reg_lo instruction) &&& src_value_2) true
  | .Lea =>
    let pc_offset := sign_extend 9 (get_bits 0 8 instruction)
    let addr := wrapping_add cpu.pc (u16_of_int pc_offset)
    -- In the default build `cfg(not(feature = "third_edition"))` is active,
    -- so the arm returns right after the register write, skipping the
    -- condition-code update (the source comment attributes this skip to the
    -- third edition, but the cfg attribute compiles it into the default build).
    cpu.set_result_and_cc instruction addr false
  | .Ld =>
    let pc_offset := sign_extend 9 (get_bits 0 8 instruction)
    let addr := wrapping_add cpu.pc (u16_of_int pc_offset)
    if !cpu.address_accessible addr then cpu.handle_exception 0x02
    else
      let r := cpu.memory.get addr
      ({ cpu with memory := r.2 }).set_result_and_cc instruction r.1 true
  | .Ldi =>
    let pc_offset := sign_extend 9 (get_bits 0 8 instruction)
    let addr := wrapping_add cpu.pc (u16_of_int pc_offset)
    if !cpu.address_accessible addr then cpu.handle_exception 0x02
    else
      let r := cpu.memory.get addr
      let indirect_addr := r.1
      let cpu := { cpu with memory := r.2 }
      -- Faithful to the source: the second accessibility test re-checks
      -- `addr`, not `indirect_addr`.
      if !cpu.address_accessible addr then cpu.handle_exception 0x02
      else
        let r2 := cpu.memory.get indirect_addr
        ({ cpu with memory := r2.2 }).set_result_and_cc instruction r2.1 true
  | .Ldr =>
    let offset := sign_extend 6 (get_bits 0 5 instruction)
    let addr := wrapping_add (cpu.get_reg_lo instruction) (u16_of_int offset)
    if !cpu.address_accessible addr then cpu.handle_exception 0x02
    else
      let r := cpu.memory.get addr
      ({ cpu with memory := r.2 }).set_result_and_cc instruction r.1 true
  | .Not =>
    cpu.set_result_and_cc instruction ((cpu.get_reg_lo instruction) ^^^ 0xFFFF) true
  | .Br =>
    let nzp := get_bits 9 11 instruction
    if 0 < nzp &&& (cpu.memory.get MemRegisters.PSR).1 then
      let pc_offset := sign_extend 9 (get_bits 0 8 instruction)
      { cpu with pc := wrapping_add cpu.pc (u16_of_int pc_offset) }
    else cpu
  | .Jmp =>
    { cpu with pc := cpu.get_reg_lo instruction }
  | .Jsr =>
    let old_pc := cpu.pc
    let cpu :=
      if get_bits 11 11 instruction = 1 then
        let pc_offset := sign_extend 11 (get_bits 0 10 instruction)
        { cpu with pc := wrapping_add cpu.pc (u16_of_int pc_offset) }
      else { cpu with pc := cpu.get_reg_lo instruction }
    { cpu with registers := upd cpu.registers 7 old_pc }
  | .St =>
    let pc_offset := sign_extend 9 (get_bits 0 8 instruction)
    let addr := wrapping_add cpu.pc (u16_of_int pc_offset)
    if !cpu.address_accessible addr then cpu.handle_exception 0x02
    else { cpu with memory := cpu.memory.set addr (cpu.get_reg_hi instruction) }
  | .Sti =>
    let pc_offset := sign_extend 9 (get_bits 0 8 instruction)
    let addr := wrapping_add cpu.pc (u16_of_int pc_offset)
    if !cpu.address_accessible addr then cpu.handle_exception 0x02
    else
      let r := cpu.memory.get addr
      let addr := r.1
      let cpu := { cpu with memory := r.2 }
      -- Faithful to the source: in this arm `handle_exception` is invoked
      -- without an early return, so the store below still executes.
      let cpu := if !cpu.address_accessible addr then cpu.handle_exception 0x02 else cpu
      { cpu with memory := cpu.memory.set addr (cpu.get_reg_hi instruction) }
  | .Str =>
    let offset := sign_extend 6 (get_bits 0 5 instruction)
    let addr := wrapping_add (cpu.get_reg_lo instruction) (u16_of_int offset)
    if !cpu.address_accessible addr then cpu.handle_exception 0x02
    else { cpu with memory := cpu.memory.set addr (cpu.get_reg_hi instruction) }
  | .Rti =>
    if get_bits 15 15 (cpu.memory.get MemRegisters.PSR).1 = 1 then
      cpu.handle_exception 0x00
    else
      let r := cpu.memory.get (cpu.registers 6)
      let cpu := { cpu with memory := r.2, pc := r.1 }
      let cpu := { cpu with registers := upd cpu.registers 6 (wrapping_add (cpu.registers 6) 1) }
      let r2 := cpu.memory.get (cpu.registers 6)
      let new_psr := r2.1
      let cpu := { cpu with memory := r2.2 }
      let cpu := { cpu with registers := upd cpu.registers 6 (wrapping_add (cpu.registers 6) 1) }
      let cpu := { cpu with memory := cpu.memory.set MemRegisters.PSR new_psr }
      if get_bits 15 15 (cpu.memory.get MemRegisters.PSR).1 = 1 then
        let cpu := { cpu with saved_ssp := cpu.registers 6 }
        { cpu with registers := upd cpu.registers 6 cpu.saved_usp }
      else cpu
  | .Reserved =>
    cpu.handle_exception 0x01
  | .Trap =>
    -- Default build: second-edition semantics, `R7 ← PC` (the
    -- `cfg(feature = "third_edition")` call to enter_supervisor_mode is absent).
    let cpu := { cpu with registers := upd cpu.registers 7 cpu.pc }
    let r := cpu.memory.get (get_bits 0 7 instruction)
    { cpu with memory := r.2, pc := r.1 }

/-- `Cpu::step`: fetch, increment `PC`, dispatch on the top nibble.  The
16-way `match` of the source collapses to a single call here because the
opcode is an ordinary argument rather than a const generic. -/
def Cpu.step (cpu : Cpu) : Cpu :=
  let r := cpu.memory.get cpu.pc
  let instruction := r.1
  let cpu := { cpu with memory := r.2, pc := wrapping_add cpu.pc 1 }
  cpu.execute_instruction (get_bits 12 15 instruction) instruction

/-- `Cpu::should_halt`: the halt flag is bit 15 of `MCR`. -/
def Cpu.should_halt (cpu : Cpu) : Bool :=
  (cpu.memory.get MemRegisters.MCR).1 &&& 0x8000 = 0

/-- The chunk-writing loop of `Cpu::load_program`:
`buf.chunks(2).enumerate().for_each(|(i, chunk)| memory[i + origin] = word)`.
`none` models a panic: either `chunk[1]` on the trailing singleton chunk of
an odd-length buffer, or the `memory[i + origin]` index at or beyond 65536.
The index `i` here carries `origin` already added. -/
def load_chunks : List Nat → Nat → (Nat → Nat) → Option (Nat → Nat)
  | [], _, mem => some mem
  | [_], _, _ => none
  | a :: b :: rest, i, mem =>
    if 65536 ≤ i then none
    else load_chunks rest (i + 1) (upd mem i (a * 256 + b))

/-- `Cpu::load_program`: read a big-endian `u16` origin, then write the
remaining big-endian words at `origin, origin+1, …`.  The outer `Option` is
`none` on panic; the inner `Except` is `error` when the origin read fails
(the `?` on `read_u16`), mirroring the `std::io::Result` return. -/
def Cpu.load_program (cpu : Cpu) (file : List Nat) : Option (Except Unit Cpu) :=
  match file with
  | b0 :: b1 :: buf =>
    let origin := b0 * 256 + b1
    (load_chunks buf origin cpu.memory.memory).map fun mem =>
      .ok { cpu with memory := { cpu.memory with memory := mem } }
  | _ => some (.error ())

/-! ## Assembler-side data model (`src/asm_parser.rs`) -/

/-- The `Register` newtype (`Register(pub u16)`). -/
structure Register where
  val : Nat
deriving DecidableEq

/-- `RegOrImm`: the third operand of `ADD`/`AND`. -/
inductive RegOrImm
  | Register (r : Register)
  | Immediate (imm : Nat)
deriving DecidableEq

/-- `Location`: a literal address/offset or a label reference. -/
inductive Location
  | Literal (v : Nat)
  | Label (l : String)
deriving DecidableEq

/-- `Operation`: one parsed machine instruction. -/
inductive Operation
  | Add (sr1 : Register) (sr2 : RegOrImm) (dr : Register)
  | And (sr1 : Register) (sr2 : RegOrImm) (dr : Register)
  | Br (n z p : Bool) (pc_offset : Location)
  | Jmp (base_r : Register)
  | Jsr (pc_offset : Location)
  | Jsrr (base_r : Register)
  | Ld (dr : Register) (pc_offset : Location)
  | Ldi (dr : Register) (pc_offset : Location)
  | Ldr (dr : Register) (base_r : Register) (offset : Nat)
  | Lea (dr : Register) (pc_offset : Location)
  | Not (dr : Register) (sr : Register)
  | Ret
  | Rti
  | St (sr : Register) (pc_offset : Location)
  | Sti (sr : Register) (pc_offset : Location)
  | Str (sr : Register) (base_r : Register) (offset : Nat)
  | Trap (vector : Nat)
deriving DecidableEq

/-- `PseudoOp`: the assembler directives.  A `.STRINGZ` carries its
processed bytes (escape sequences resolved, trailing NUL included). -/
inductive PseudoOp
  | Orig (origin : Nat)
  | Fill (loc : Location)
  | Blkw (n : Nat)
  | Stringz (string : List Nat)
  | End
deriving DecidableEq

/-- The named traps (`Trap` enum of `src/asm_parser.rs`). -/
inductive Trap
  | Getc
  | Halt
  | In
  | Out
  | Puts
  | Putsp
deriving DecidableEq

/-- `Instruction`: an operation, a pseudo-op, or a named trap. -/
inductive Instruction
  | Operation (op : Operation)
  | PseudoOp (p : PseudoOp)
  | Trap (t : Trap)
deriving DecidableEq

/-- `CodeLine`: optional label, instruction, and the location-counter value
at which the instruction was placed. -/
structure CodeLine where
  label : Option String
  instruction : Instruction
  location : Nat
deriving DecidableEq

/-- `Program`: origin, lines, and the label table.  The `HashMap` of the
source is modelled as an association list where an insert prepends and a
lookup takes the most recent binding (`last-writer wins`, matching
`HashMap::insert`). -/
structure Program where
  origin : Nat
  lines : List CodeLine
  labels : List (String × Nat)
deriving DecidableEq

/-- Lookup in the modelled label map: the most recent insert wins. -/
def lookupLabel : List (String × Nat) → String → Option Nat
  | [], _ => none
  | (k, v) :: rest, l => if k = l then some v else lookupLabel rest l

/-! ## Lexer tokens

The `logos`-generated lexer of `src/asm_parser.rs` is external regex
machinery; the parser is embedded over the token stream it produces.  A
`Token.Number` carries the already-decoded `i64`, a `Token.String` carries
the raw slice bytes (quotes included), a `Token.Br` carries the decoded
`(n, z, p)` triple and a `Token.Register` the register index, mirroring the
`logos` callbacks `num`, `brnzp` and `register`. -/

inductive Token
  | Orig
  | Fill
  | Blkw
  | Stringz
  | End
  | Add
  | And
  | Br (n z p : Bool)
  | Jmp
  | Jsr
  | Jsrr
  | Ldi
  | Ldr
  | Ld
  | Lea
  | Not
  | Ret
  | Rti
  | Sti
  | Str
  | St
  | Trap
  | Getc
  | Halt
  | In
  | Out
  | Puts
  | Putsp
  | Number (n : Int)
  | Label (l : String)
  | String (s : List Nat)
  | Register (r : Nat)
  | Separator
deriving DecidableEq

/-! ## Parser (`Parser` impl of `src/asm_parser.rs`)

The `Scanner` (one-token lookahead over the lexer) is modelled as the
remaining token list: `peek` is the head, `next` drops it.  The parsing
helpers below only ever touch the scanner, so they are functions on the
token list; `location_cursor` and `labels` live in `PState` and are only
read or written by `parse_code_line` and `parse_program`, as in the
source. -/

structure PState where
  tokens : List Token
  location_cursor : Nat
  labels : List (String × Nat)
deriving DecidableEq

/-- `Parser::parse_separator`: consume an optional `,`. -/
def Parser.parse_separator (ts : List Token) : Bool × List Token :=
  match ts with
  | Token.Separator :: rest => (true, rest)
  | _ => (false, ts)

/-- `Parser::parse_number`: a `Number` token is accepted if its `i64` value
lies in `i16::MIN ..= u16::MAX` and is returned `as u16` (its low 16 bits);
an out-of-range number is an error; any other token yields `none`. -/
def Parser.parse_number (ts : List Token) : Except String (Option Nat × List Token) :=
  match ts with
  | Token.Number n :: rest =>
    if -32768 ≤ n ∧ n ≤ 65535 then .ok (some (n % 65536).toNat, rest)
    else .error "cannot fit in 16 bits"
  | _ => .ok (none, ts)

/-- The escape-processing loop of `Parser::parse_string`: a backslash is
consumed and flags the next byte, which is replaced per the escape table
(`\a \b \f \n \r \t \v \" \\`) or taken literally as a permissive
fallback. -/
def process_escapes : List Nat → Bool → List Nat
  | [], _ => []
  | c :: rest, prev_was_escaped =>
    if c = 92 ∧ !prev_was_escaped then process_escapes rest true
    else if prev_was_escaped then
      (match c with
       | 97 => 7
       | 98 => 8
       | 102 => 12
       | 110 => 10
       | 114 => 13
       | 116 => 9
       | 118 => 11
       | 34 => 34
       | 92 => 92
       | _ => c) :: process_escapes rest false
    else c :: process_escapes rest false

/-- The byte vector built by `Parser::parse_string` from a string token's
raw slice `s`: the escape-processed bytes between the quotes
(`s.as_bytes()[1..s.len() - 1]`) with the trailing NUL appended. -/
def stringz_chars (s : List Nat) : List Nat :=
  process_escapes ((s.drop 1).dropLast) false ++ [0]

/-- `Parser::parse_string`: build the byte vector and fail when it has
`0xFFFF` or more bytes. -/
def Parser.parse_string (ts : List Token) : Except String (Option (List Nat) × List Token) :=
  match ts with
  | Token.String s :: rest =>
    if 0xFFFF ≤ (stringz_chars s).length then .error "String does not fit in memory"
    else .ok (some (stringz_chars s), rest)
  | _ => .ok (none, ts)

/-- `Parser::parse_label`. -/
def Parser.parse_label (ts : List Token) : Option String × List Token :=
  match ts with
  | Token.Label l :: rest => (some l, rest)
  | _ => (none, ts)

/-- `Parser::parse_register`. -/
def Parser.parse_register (ts : List Token) : Option Register × List Token :=
  match ts with
  | Token.Register r :: rest => (some ⟨r⟩, rest)
  | _ => (none, ts)

/-- `Parser::parse_location`: a number makes a `Literal`, else a label
makes a `Label`, else `none`. -/
def Parser.parse_location (ts : List Token) : Except String (Option Location × List Token) := do
  let (n, ts) ← Parser.parse_number ts
  match n with
  | some n => .ok (some (Location.Literal n), ts)
  | none =>
    match Parser.parse_label ts with
    | (some l, ts) => .ok (some (Location.Label l), ts)
    | (none, ts) => .ok (none, ts)

/-- The `parse_register().ok_or_else(…)?` pattern: a missing register
operand is an error. -/
def Parser.expect_register (ts : List Token) : Except String (Register × List Token) :=
  match Parser.parse_register ts with
  | (some r, ts) => .ok (r, ts)
  | (none, _) => .error "Expected register"

/-- The `parse_number()?.ok_or_else(…)?` pattern: a missing number operand
is an error (an out-of-range number already errored inside
`parse_number`). -/
def Parser.expect_number (ts : List Token) : Except String (Nat × List Token) := do
  let (n, ts) ← Parser.parse_number ts
  match n with
  | some n => .ok (n, ts)
  | none => .error "Expected number"

/-- The `parse_location()?.ok_or_else(…)?` pattern. -/
def Parser.expect_location (ts : List Token) : Except String (Location × List Token) := do
  let (l, ts) ← Parser.parse_location ts
  match l with
  | some l => .ok (l, ts)
  | none => .error "Expected number or label"

/-- The `parse_string()?.ok_or_else(…)?` pattern. -/
def Parser.expect_string (ts : List Token) : Except String (List Nat × List Token) := do
  let (s, ts) ← Parser.parse_string ts
  match s with
  | some s => .ok (s, ts)
  | none => .error "Expected string"

/-- `Parser::parse_instruction`: one arm per peeked token, mirroring the
source `match`; a separator between operands is consumed when present and
never required.  A token that opens no instruction yields `none` with the
stream untouched. -/
def Parser.parse_instruction (ts : List Token) : Except String (Option Instruction × List Token) :=
  match ts with
  | Token.Add :: rest => do
    let (dr, ts) ← Parser.expect_register rest
    let (_, ts) := Parser.parse_separator ts
    let (sr1, ts) ← Parser.expect_register ts
    let (_, ts) := Parser.parse_separator ts
    match Parser.parse_register ts with
    | (some r, ts) => .ok (some (.Operation (.Add sr1 (.Register r) dr)), ts)
    | (none, ts) => do
      let (imm, ts) ← Parser.expect_number ts
      .ok (some (.Operation (.Add sr1 (.Immediate imm) dr)), ts)
  | Token.And :: rest => do
    let (dr, ts) ← Parser.expect_register rest
    let (_, ts) := Parser.parse_separator ts
    let (sr1, ts) ← Parser.expect_register ts
    let (_, ts) := Parser.parse_separator ts
    match Parser.parse_register ts with
    | (some r, ts) => .ok (some (.Operation (.And sr1 (.Register r) dr)), ts)
    | (none, ts) => do
      let (imm, ts) ← Parser.expect_number ts
      .ok (some (.Operation (.And sr1 (.Immediate imm) dr)), ts)
  | Token.Br n z p :: rest => do
    let (pc_offset, ts) ← Parser.expect_location rest
    .ok (some (.Operation (.Br n z p pc_offset)), ts)
  | Token.Jmp :: rest => do
    let (base_r, ts) ← Parser.expect_register rest
    .ok (some (.Operation (.Jmp base_r)), ts)
  | Token.Jsr :: rest => do
    let (pc_offset, ts) ← Parser.expect_location rest
    .ok (some (.Operation (.Jsr pc_offset)), ts)
  | Token.Jsrr :: rest => do
    let (base_r, ts) ← Parser.expect_register rest
    .ok (some (.Operation (.Jsrr base_r)), ts)
  | Token.Ld :: rest => do
    let (dr, ts) ← Parser.expect_register rest
    let (_, ts) := Parser.parse_separator ts
    let (pc_offset, ts) ← Parser.expect_location ts
    .ok (some (.Operation (.Ld dr pc_offset)), ts)
  | Token.Ldi :: rest => do
    let (dr, ts) ← Parser.expect_register rest
    let (_, ts) := Parser.parse_separator ts
    let (pc_offset, ts) ← Parser.expect_location ts
    .ok (some (.Operation (.Ldi dr pc_offset)), ts)
  | Token.Ldr :: rest => do
    let (dr, ts) ← Parser.expect_register rest
    let (_, ts) := Parser.parse_separator ts
    let (base_r, ts) ← Parser.expect_register ts
    let (_, ts) := Parser.parse_separator ts
    let (offset, ts) ← Parser.expect_number ts
    .ok (some (.Operation (.Ldr dr base_r offset)), ts)
  | Token.Lea :: rest => do
    let (dr, ts) ← Parser.expect_register rest
    let (_, ts) := Parser.parse_separator ts
    let (pc_offset, ts) ← Parser.expect_location ts
    .ok (some (.Operation (.Lea dr pc_offset)), ts)
  | Token.Not :: rest => do
    let (dr, ts) ← Parser.expect_register rest
    let (_, ts) := Parser.parse_separator ts
    let (sr, ts) ← Parser.expect_register ts
    .ok (some (.Operation (.Not dr sr)), ts)
  | Token.Ret :: rest => .ok (some (.Operation .Ret), rest)
  | Token.Rti :: rest => .ok (some (.Operation .Rti), rest)
  | Token.St :: rest => do
    let (sr, ts) ← Parser.expect_register rest
    let (_, ts) := Parser.parse_separator ts
    let (pc_offset, ts) ← Parser.expect_location ts
    .ok (some (.Operation (.St sr pc_offset)), ts)
  | Token.Sti :: rest => do
    let (sr, ts) ← Parser.expect_register rest
    let (_, ts) := Parser.parse_separator ts
    let (pc_offset, ts) ← Parser.expect_location ts
    .ok (some (.Operation (.Sti sr pc_offset)), ts)
  | Token.Str :: rest => do
    let (sr, ts) ← Parser.expect_register rest
    let (_, ts) := Parser.parse_separator ts
    let (base_r, ts) ← Parser.expect_register ts
    let (_, ts) := Parser.parse_separator ts
    let (offset, ts) ← Parser.expect_number ts
    .ok (some (.Operation (.Str sr base_r offset)), ts)
  | Token.Trap :: rest => do
    let (vector, ts) ← Parser.expect_number rest
    .ok (some (.Operation (.Trap vector)), ts)
  | Token.Orig :: rest => do
    let (location, ts) ← Parser.expect_number rest
    .ok (some (.PseudoOp (.Orig location)), ts)
  | Token.Fill :: rest => do
    let (location, ts) ← Parser.expect_location rest
    .ok (some (.PseudoOp (.Fill location)), ts)
  | Token.Blkw :: rest => do
    let (size, ts) ← Parser.expect_number rest
    .ok (some (.PseudoOp (.Blkw size)), ts)
  | Token.Stringz :: rest => do
    let (string, ts) ← Parser.expect_string rest
    .ok (some (.PseudoOp (.Stringz string)), ts)
  | Token.End :: rest => .ok (some (.PseudoOp .End), rest)
  | Token.Getc :: rest => .ok (some (.Trap .Getc), rest)
  | Token.Halt :: rest => .ok (some (.Trap .Halt), rest)
  | Token.In :: rest => .ok (some (.Trap .In), rest)
  | Token.Out :: rest => .ok (some (.Trap .Out), rest)
  | Token.Puts :: rest => .ok (some (.Trap .Puts), rest)
  | Token.Putsp :: rest => .ok (some (.Trap .Putsp), rest)
  | _ => .ok (none, ts)

/-- `Parser::parse_code_line`: optional leading label, then exactly one
instruction, stamped with the current location counter. -/
def Parser.parse_code_line (s : PState) : Except String (CodeLine × PState) :=
  let (label, ts) := Parser.parse_label s.tokens
  match Parser.parse_instruction ts with
  | .error e => .error e
  | .ok (none, _) => .error "Expected instruction"
  | .ok (some instruction, ts) =>
    .ok ({ label := label, instruction := instruction, location := s.location_cursor },
         { s with tokens := ts })

/-- The location-counter advance for one line: `n` for `.BLKW n`, the byte
count (trailing NUL included) for `.STRINGZ`, otherwise 1. -/
def location_increment (i : Instruction) : Nat :=
  match i with
  | .PseudoOp (.Blkw n) => n
  | .PseudoOp (.Stringz string) => string.length
  | _ => 1

/-- The `loop` of `Parser::parse_program`: parse lines until `.END`,
advancing the location cursor (`checked_add`, failing on 16-bit overflow),
failing when the cursor reaches device register space, and recording
labels.  The loop consumes at least one token per iteration, so `fuel`
larger than the token count never runs out. -/
def Parser.parse_lines (fuel : Nat) (s : PState) : Except String (List CodeLine × PState) :=
  match fuel with
  | 0 => .error "parser fuel exhausted"
  | fuel + 1 => do
    let (line, s) ← Parser.parse_code_line s
    match line.instruction with
    | .PseudoOp .End => .ok ([], s)
    | _ =>
      let newCursor := s.location_cursor + location_increment line.instruction
      if 65535 < newCursor then .error "Program goes past the end of memory"
      else if 0xFE00 ≤ newCursor then .error "Program goes into device register space"
      else
        let s := { s with
          location_cursor := newCursor
          labels := match line.label with
                    | some label => (label, line.location) :: s.labels
                    | none => s.labels }
        do
          let (lines, s) ← Parser.parse_lines fuel s
          .ok (line :: lines, s)

/-- `Parser::parse_program`: requires a leading `.ORIG`, sets the location
cursor to the origin, then runs the line loop. -/
def Parser.parse_program (fuel : Nat) (s : PState) :
    Except String ((Nat × List CodeLine) × PState) := do
  let (i, ts) ← Parser.parse_instruction s.tokens
  match i with
  | some (.PseudoOp (.Orig origin)) =>
    let s := { s with tokens := ts, location_cursor := origin }
    let (lines, s) ← Parser.parse_lines fuel s
    .ok ((origin, lines), s)
  | _ => .error "Expected .ORIG"

/-- `Parser::parse`: run the parser from a fresh state and package the
`Program`. -/
def Parser.parse (tokens : List Token) : Except String Program := do
  let s : PState := { tokens := tokens, location_cursor := 0, labels := [] }
  let ((origin, lines), s) ← Parser.parse_program (tokens.length + 1) s
  .ok { origin := origin, lines := lines, labels := s.labels }

/-! ## Assembler (`src/assembler.rs`) -/

/-- `resolve_label`. -/
def resolve_label (pgm : Program) (label : String) : Except String Nat :=
  match lookupLabel pgm.labels label with
  | some v => .ok v
  | none => .error "Could not resolve label"

/-- `resolve_location_absolute`: a label resolves to its address, a literal
to itself. -/
def resolve_location_absolute (pgm : Program) (loc : Location) : Except String Nat :=
  match loc with
  | .Label label => resolve_label pgm label
  | .Literal v => .ok v

/-- `resolve_location_relative`: a label resolves to
`label_address - line_location - 1` with 16-bit wrap-around; a literal is
taken verbatim as the offset. -/
def resolve_location_relative (pgm : Program) (loc : Location) (line_loc : Nat) :
    Except String Nat :=
  match loc with
  | .Label label => do
    let a ← resolve_label pgm label
    .ok (wrapping_sub (wrapping_sub a line_loc) 1)
  | .Literal v => .ok v

/-- The per-line emission of `assemble` (the body of its `for` loop): the
words pushed for one `CodeLine`.  `.END` is handled by the caller
(`assemble_lines`) before this function, matching the loop's `break`. -/
def assemble_code_line (pgm : Program) (line : CodeLine) : Except String (List Nat) :=
  match line.instruction with
  | .PseudoOp (.Fill loc) => do
    let v ← resolve_location_absolute pgm loc
    .ok [v]
  | .PseudoOp (.Blkw n) => .ok (List.replicate n 0)
  | .PseudoOp (.Stringz string) => .ok string
  | .PseudoOp .End => .ok []
  | .PseudoOp (.Orig _) => .error "Unexpected .ORIG"
  | .Operation operation =>
    (match operation with
     | .Add sr1 sr2 dr => do
       let inst_hi := (Opcode.Add.to_int <<< 12) ||| (dr.val <<< 9) ||| (sr1.val <<< 6)
       match sr2 with
       | .Register r => .ok [inst_hi ||| r.val]
       | .Immediate imm => do
         let t ← truncate 5 imm
         .ok [inst_hi ||| (1 <<< 5) ||| t]
     | .And sr1 sr2 dr => do
       let inst_hi := (Opcode.And.to_int <<< 12) ||| (dr.val <<< 9) ||| (sr1.val <<< 6)
       match sr2 with
       | .Register r => .ok [inst_hi ||| r.val]
       | .Immediate imm => do
         let t ← truncate 5 imm
         .ok [inst_hi ||| (1 <<< 5) ||| t]
     | .Br n z p pc_offset => do
       let nzp := (cond n 4 0) ||| (cond z 2 0) ||| (cond p 1 0)
       let nzp := if nzp = 0 then 0b111 else nzp
       let loc ← resolve_location_relative pgm pc_offset line.location
       let t ← truncate 9 loc
       .ok [(Opcode.Br.to_int <<< 12) ||| (nzp <<< 9) ||| t]
     | .Jmp base_r => .ok [(Opcode.Jmp.to_int <<< 12) ||| (base_r.val <<< 6)]
     | .Jsr pc_offset => do
       let loc ← resolve_location_relative pgm pc_offset line.location
       let t ← truncate 11 loc
       .ok [(Opcode.Jsr.to_int <<< 12) ||| (1 <<< 11) ||| t]
     | .Jsrr base_r => .ok [(Opcode.Jsr.to_int <<< 12) ||| (base_r.val <<< 6)]
     | .Ld dr pc_offset => do
       let loc ← resolve_location_relative pgm pc_offset line.location
       let t ← truncate 9 loc
       .ok [(Opcode.Ld.to_int <<< 12) ||| (dr.val <<< 9) ||| t]
     | .Ldi dr pc_offset => do
       let loc ← resolve_location_relative pgm pc_offset line.location
       let t ← truncate 9 loc
       .ok [(Opcode.Ldi.to_int <<< 12) ||| (dr.val <<< 9) ||| t]
     | .Lea dr pc_offset => do
       let loc ← resolve_location_relative pgm pc_offset line.location
       let t ← truncate 9 loc
       .ok [(Opcode.Lea.to_int <<< 12) ||| (dr.val <<< 9) ||| t]
     | .St sr pc_offset => do
       let loc ← resolve_location_relative pgm pc_offset line.location
       let t ← truncate 9 loc
       .ok [(Opcode.St.to_int <<< 12) ||| (sr.val <<< 9) ||| t]
     | .Sti sr pc_offset => do
       let loc ← resolve_location_relative pgm pc_offset line.location
       let t ← truncate 9 loc
       .ok [(Opcode.Sti.to_int <<< 12) ||| (sr.val <<< 9) ||| t]
     | .Ldr dr base_r offset => do
       let t ← truncate 6 offset
       .ok [(Opcode.Ldr.to_int <<< 12) ||| (dr.val <<< 9) ||| (base_r.val <<< 6) ||| t]
     | .Str sr base_r offset => do
       let t ← truncate 6 offset
       .ok [(Opcode.Str.to_int <<< 12) ||| (sr.val <<< 9) ||| (base_r.val <<< 6) ||| t]
     | .Not dr sr =>
       .ok [(Opcode.Not.to_int <<< 12) ||| (dr.val <<< 9) ||| (sr.val <<< 6) ||| 0b111111]
     | .Ret => .ok [(Opcode.Jmp.to_int <<< 12) ||| (7 <<< 6)]
     | .Rti => .ok [Opcode.Rti.to_int <<< 12]
     | .Trap vector => do
       let t ← truncate 8 vector
       .ok [(Opcode.Trap.to_int <<< 12) ||| t])
  | .Trap trap =>
    let vector : Nat :=
      match trap with
      | .Getc => 0x20
      | .Out => 0x21
      | .Puts => 0x22
      | .In => 0x23
      | .Putsp => 0x24
      | .Halt => 0x25
    .ok [(Opcode.Trap.to_int <<< 12) ||| vector]

/-- The `for` loop of `assemble`: emit the words for each line in order,
stopping (without emission) at `.END`. -/
def assemble_lines (pgm : Program) : List CodeLine → Except String (List Nat)
  | [] => .ok []
  | line :: rest =>
    match line.instruction with
    | .PseudoOp .End => .ok []
    | _ => do
      let ws ← assemble_code_line pgm line
      let rest ← assemble_lines pgm rest
      .ok (ws ++ rest)

/-- `assemble`: the origin word first, then the per-line words in source
order. -/
def assemble (pgm : Program) : Except String (List Nat) := do
  let ws ← assemble_lines pgm pgm.lines
  .ok (pgm.origin :: ws)

/-! ## Statement helpers -/

/-- Whether an `Except` computation succeeded. -/
def is_ok {α : Type} (e : Except String α) : Bool :=
  match e with
  | .ok _ => true
  | .error _ => false

/-- The specification's formula for a PC-relative offset field before width
checking: `target_address − (line_location + 1)` interpreted modulo
`2 ^ 16`. -/
def spec_pc_offset (a loc : Nat) : Nat :=
  (((a : Int) - ((loc : Int) + 1)) % 65536).toNat

/-! ## Concrete scenario inputs -/

/-- The token stream of scenario S1:
`.ORIG x3000 / ADD R0,R0,#1 / HALT / .END`. -/
def s1_tokens : List Token :=
  [.Orig, .Number 0x3000, .Add, .Register 0, .Separator, .Register 0, .Separator,
   .Number 1, .Halt, .End]

/-- The token stream of scenario S2:
`.ORIG x3000 / AND R0,R0,#0 / LOOP ADD R0,R0,#1 / BRnzp LOOP / .END`. -/
def s2_tokens : List Token :=
  [.Orig, .Number 0x3000, .And, .Register 0, .Separator, .Register 0, .Separator,
   .Number 0, .Label "LOOP", .Add, .Register 0, .Separator, .Register 0, .Separator,
   .Number 1, .Br true true true, .Label "LOOP", .End]

/-- A user-mode CPU state (`PSR[15] = 1`) about to execute the instruction
at `0x3000` (so `PC = 0x3001` after the fetch increment).  Memory holds
`0x0000` at `0x3001` — an accessible word whose value, used as an indirect
address by `LDI`/`STI`, lies in protected supervisor space — and a marker
value `0x1234` at the protected address `0x0000`. -/
def acv_test_cpu : Cpu :=
  { registers := fun r => if r = 6 then 0x4000 else if r = 0 then 0xBEEF else 0
    memory := { memory := fun a =>
                  if a = MemRegisters.PSR then 0x8000
                  else if a = 0x3001 then 0x0000
                  else if a = 0 then 0x1234 else 0
                keyboard_io := KeyboardIo.new []
                stdout := [] }
    pc := 0x3001
    saved_usp := 0xFE00
    saved_ssp := 0x3000 }

/-- A supervisor-mode CPU state with condition codes `Z` (`PSR = 0x0002`)
and `PC = 0x3001`, used to execute `LEA R0, #2` (word `0xE002`). -/
def lea_test_cpu : Cpu :=
  { registers := fun _ => 0
    memory := { memory := fun a => if a = MemRegisters.PSR then 0x0002 else 0
                keyboard_io := KeyboardIo.new []
                stdout := [] }
    pc := 0x3001
    saved_usp := 0xFE00
    saved_ssp := 0x3000 }

/-- A memory with a zeroed array, no pending keyboard input, and an empty
display sink. -/
def ddr_test_mem : Memory :=
  { memory := fun _ => 0, keyboard_io := KeyboardIo.new [], stdout := [] }

/-! ## Claim theorems -/

/-- C1 (code bug, failing evaluations).  In the user-mode state
`acv_test_cpu` the indirect target `0x0000` is protected (first two
conjuncts).  Executing `LDI R0, #0` (word `0xA000`, opcode 10) must,
per the claim, trigger exception vector `0x02`; instead the code re-checks
the direct address, raises no exception (`PC` stays `0x3001` rather than
becoming `0x0102`) and loads `R0` from the protected address `0x0000`.
Executing `STI R0, #0` (word `0xB000`, opcode 11) does raise the exception
(`PC = 0x0102`) but, lacking an early return, still stores `R0 = 0xBEEF`
to the protected address `0x0000`. -/
theorem ldi_sti_protection_bug :
    (acv_test_cpu.address_accessible 0x0000 = false
      ∧ acv_test_cpu.memory.memory 0x3001 = 0x0000)
    ∧ ((acv_test_cpu.execute_instruction 10 0xA000).pc = 0x3001
      ∧ (acv_test_cpu.execute_instruction 10 0xA000).registers 0 = 0x1234)
    ∧ ((acv_test_cpu.execute_instruction 11 0xB000).pc = 0x0102
      ∧ (acv_test_cpu.execute_instruction 11 0xB000).memory.memory 0 = 0xBEEF) := by
  refine ⟨⟨?_, ?_⟩, ⟨?_, ?_⟩, ?_, ?_⟩ <;> decide

/-- C3 (code bug, failing evaluation).  In the default second-edition
build, executing `LEA R0, #2` (word `0xE002`, opcode 14) from
`lea_test_cpu` writes `PC + 2 = 0x3003` to `R0` but leaves
`PSR = 0x0002` (condition codes still `Z`) because the early return guarded
by `cfg(not(feature = "third_edition"))` skips the condition-code update;
the claim requires `PSR[2:0]` to become `001` (`P`) for the positive
result. -/
theorem lea_cc_bug :
    (lea_test_cpu.execute_instruction 14 0xE002).registers 0 = 0x3003
    ∧ (lea_test_cpu.execute_instruction 14 0xE002).memory.memory MemRegisters.PSR = 0x0002
    ∧ toSigned16 0x3003 > 0 := by
  refine ⟨?_, ?_, ?_⟩ <;> decide

/-- C4: parsing and assembling scenario S1 yields exactly
`[0x3000, 0x1021, 0xF025]` — origin word first, then one word per
instruction in source order — and every named trap mnemonic encodes to
`TRAP` with its fixed vector (`GETC = 0x20`, `OUT = 0x21`, `PUTS = 0x22`,
`IN = 0x23`, `PUTSP = 0x24`, `HALT = 0x25`). -/
theorem assemble_s1_and_trap_table :
    (Parser.parse s1_tokens).bind assemble = .ok [0x3000, 0x1021, 0xF025]
    ∧ (∀ (pgm : Program) (lb : Option String) (loc : Nat),
        assemble_code_line pgm ⟨lb, .Trap .Getc, loc⟩ = .ok [0xF020]
        ∧ assemble_code_line pgm ⟨lb, .Trap .Out, loc⟩ = .ok [0xF021]
        ∧ assemble_code_line pgm ⟨lb, .Trap .Puts, loc⟩ = .ok [0xF022]
        ∧ assemble_code_line pgm ⟨lb, .Trap .In, loc⟩ = .ok [0xF023]
        ∧ assemble_code_line pgm ⟨lb, .Trap .Putsp, loc⟩ = .ok [0xF024]
        ∧ assemble_code_line pgm ⟨lb, .Trap .Halt, loc⟩ = .ok [0xF025]) :=
  ⟨by decide, fun _ _ _ => ⟨rfl, rfl, rfl, rfl, rfl, rfl⟩⟩

/-- C8: `read_kbsr` returns `0x8000` exactly when the `kbsr` flag is set
after the probe (and `0x0000` otherwise); and in the concrete S6 scenario
with one pending byte `0x41`, the first `read_kbsr` yields `0x8000`, the
following `read_kbdr` yields `0x0041` and sets `need_more_input`, and a
further `read_kbsr` with no more input yields `0x0000`. -/
theorem kbsr_kbdr_spec :
    (∀ k : KeyboardIo,
      (k.read_kbsr).1 = (if (k.read_kbsr).2.kbsr then 0x8000 else 0x0000))
    ∧ ((KeyboardIo.new [0x41]).read_kbsr).1 = 0x8000
    ∧ (((KeyboardIo.new [0x41]).read_kbsr).2.read_kbdr).1 = 0x0041
    ∧ (((KeyboardIo.new [0x41]).read_kbsr).2.read_kbdr).2.need_more_input = true
    ∧ ((((KeyboardIo.new [0x41]).read_kbsr).2.read_kbdr).2.read_kbsr).1 = 0x0000 :=
  ⟨fun _ => rfl, by decide, by decide, by decide, by decide⟩

/-- C9 (counterexample).  Writing `0x010A` to `DDR` emits only the byte
`0x0A` (followed by the flush): the source emits the carriage return only
when the whole 16-bit word equals `0x000A`, although the low byte of
`0x010A` is `0x0A = '\n'`, for which the claim requires a preceding
`0x0D`. -/
theorem ddr_low_byte_counterexample :
    (0x010A : Nat) % 256 = 0x0A
    ∧ (ddr_test_mem.set MemRegisters.DDR 0x010A).stdout
        = [OutEvent.byte 0x0A, OutEvent.flush] := by
  refine ⟨?_, ?_⟩ <;> decide

/-- C9 (amended): a write of `v` to `DDR` appends to the display sink a
carriage return exactly when `v = 0x000A` (the code compares the entire
word, not its low byte), then the low 8 bits of `v`, then a flush; the
memory array and the keyboard buffer are unchanged. -/
theorem ddr_write_spec (v : Nat) (m : Memory) :
    ((m.set MemRegisters.DDR v).stdout
        = m.stdout ++ (if v = 0x000A then [OutEvent.byte 0x0D] else [])
            ++ [OutEvent.byte (v % 256), OutEvent.flush])
    ∧ (m.set MemRegisters.DDR v).memory = m.memory
    ∧ (m.set MemRegisters.DDR v).keyboard_io = m.keyboard_io := by
  refine ⟨?_, ?_, ?_⟩ <;>
    simp [Memory.set, MemRegisters.DDR, MemRegisters.KBSR, MemRegisters.KBDR,
      MemRegisters.DSR]

/-- C2 (counterexample).  At width 5 the value 16 lies inside the claimed
acceptance range `[-(2^4), 2^5 - 1] = [-16, 31]`, yet `truncate::<5>(16)`
fails: 16 is not a signed 5-bit value. -/
theorem truncate_claimed_range_counterexample :
    (-(2 ^ (5 - 1) : Int) ≤ toSigned16 16 ∧ toSigned16 16 ≤ 2 ^ 5 - 1)
    ∧ is_ok (truncate 5 16) = false := by
  refine ⟨⟨?_, ?_⟩, ?_⟩ <;> decide

/-- Sign extension of the low `W` bits of a 16-bit word fixes its signed
reading exactly when that reading is a signed `W`-bit value. -/
theorem sign_extend_fixed_iff (W n : Nat) (h1 : 1 ≤ W) (h2 : W ≤ 15) (_h3 : n < 65536) :
    (sign_extend W (toSigned16 n) = toSigned16 n
      ↔ (-(2 ^ (W - 1) : Int) ≤ toSigned16 n ∧ toSigned16 n ≤ 2 ^ (W - 1) - 1)) := by
  interval_cases W <;>
    · simp only [sign_extend, toSigned16]
      norm_num
      split_ifs <;> omega

/-- C2 (amended): for widths `1 ≤ W ≤ 15` (the widths the assembler uses;
at `W = 16` the mask shift in the source overflows), `truncate W n`
succeeds exactly when `n` read as a signed 16-bit integer lies in the
signed `W`-bit range `[-(2^(W-1)), 2^(W-1) - 1]`, and on success returns
the low `W` bits of `n`. -/
theorem truncate_signed_range (W n : Nat) (h1 : 1 ≤ W) (h2 : W ≤ 15) (h3 : n < 65536) :
    (is_ok (truncate W n) = true
      ↔ (-(2 ^ (W - 1) : Int) ≤ toSigned16 n ∧ toSigned16 n ≤ 2 ^ (W - 1) - 1))
    ∧ (∀ r, truncate W n = .ok r → r = n % 2 ^ W) := by
  constructor
  · rw [← sign_extend_fixed_iff W n h1 h2 h3]
    simp only [truncate, is_ok]
    split_ifs with h
    · simp [h]
    · simp [not_not.mp h]
  · intro r hr
    simp only [truncate] at hr
    split_ifs at hr
    exact (Except.ok.inj hr).symm

/-- Witness for `truncate_signed_range` at `W = 5`, `n = 0xFFF0` (`-16`). -/
theorem truncate_signed_range_witness :
    ((1 ≤ 5 ∧ 5 ≤ 15 ∧ 0xFFF0 < 65536)
      ∧ (is_ok (truncate 5 0xFFF0) = true
          ↔ (-(2 ^ (5 - 1) : Int) ≤ toSigned16 0xFFF0
              ∧ toSigned16 0xFFF0 ≤ 2 ^ (5 - 1) - 1))) :=
  ⟨by refine ⟨?_, ?_, ?_⟩ <;> decide,
   (truncate_signed_range 5 0xFFF0 (by decide) (by decide) (by decide)).1⟩

/-- The panic condition of the chunk-writing loop: starting at index
`i ≤ 65536`, the loop completes without panicking exactly when the buffer
has an even number of bytes and its words fit below address `0x10000`. -/
theorem load_chunks_isSome :
    ∀ (buf : List Nat) (i : Nat) (mem : Nat → Nat), i ≤ 65536 →
      ((load_chunks buf i mem).isSome = true
        ↔ (buf.length % 2 = 0 ∧ i + buf.length / 2 ≤ 65536))
  | [], i, mem, h => by simp [load_chunks]; omega
  | [_], i, mem, h => by simp [load_chunks]
  | _ :: _ :: rest, i, mem, h => by
    rw [load_chunks]
    by_cases hc : 65536 ≤ i
    · rw [if_pos hc]
      simp only [Option.isSome_none, Bool.false_eq_true, false_iff, List.length_cons]
      omega
    · rw [if_neg hc, load_chunks_isSome rest (i + 1) _ (by omega)]
      simp only [List.length_cons]
      omega

/-- C10: `load_program` on a stream with a 2-byte big-endian origin word
returns (with `Ok`) rather than panicking exactly when the remaining body
has an even number of bytes and `origin + word_count ≤ 0x10000`; an
odd-length body or words extending past address `0xFFFF` make the loop
index out of bounds (a panic, `none` in the model) instead of an `Err`. -/
theorem load_program_panic_iff (b0 b1 : Nat) (buf : List Nat) (cpu : Cpu)
    (h0 : b0 < 256) (h1 : b1 < 256) :
    ((cpu.load_program (b0 :: b1 :: buf)).isSome = true
      ↔ (buf.length % 2 = 0 ∧ b0 * 256 + b1 + buf.length / 2 ≤ 65536)) := by
  have hmap : ∀ (o : Option (Nat → Nat)) (f : (Nat → Nat) → Except Unit Cpu),
      (o.map f).isSome = o.isSome := fun o f => by cases o <;> rfl
  show (Option.map _ (load_chunks buf (b0 * 256 + b1) cpu.memory.memory)).isSome = true ↔ _
  rw [hmap]
  exact load_chunks_isSome buf _ _ (by omega)

/-- Witness for `load_program_panic_iff`: origin `0xFFFF` with a single
word exactly fills memory. -/
theorem load_program_panic_iff_witness :
    ((0xFF : Nat) < 256 ∧ (0xFF : Nat) < 256)
    ∧ (((Cpu.new []).load_program [0xFF, 0xFF, 0xAB, 0xCD]).isSome = true
        ↔ (([0xAB, 0xCD] : List Nat).length % 2 = 0
            ∧ 0xFF * 256 + 0xFF + ([0xAB, 0xCD] : List Nat).length / 2 ≤ 65536)) :=
  ⟨by decide,
   load_program_panic_iff 0xFF 0xFF [0xAB, 0xCD] (Cpu.new []) (by decide) (by decide)⟩

/-- Folding a bind over a successful `truncate` into `Except.map`. -/
theorem bind_truncate_map (W off : Nat) (f : Nat → List Nat) :
    ((truncate W off).bind fun t => Except.ok (f t)) = (truncate W off).map f := by
  cases truncate W off <;> rfl

/-- A resolved label followed by a width check is the width check of the
resolved offset. -/
theorem bind_resolve_truncate (pgm : Program) (l : Location) (lloc W off : Nat)
    (h : resolve_location_relative pgm l lloc = .ok off) (f : Nat → List Nat) :
    ((resolve_location_relative pgm l lloc).bind fun v =>
        (truncate W v).bind fun t => Except.ok (f t))
      = (truncate W off).map f := by
  rw [h]
  exact bind_truncate_map W off f

/-- C5: for every line whose PC-relative operand is a label (`BR`, `JSR`,
`LD`, `LDI`, `LEA`, `ST`, `STI`), the emitted word is the result of
width-checking `label_address − (line_location + 1)` (mod `2 ^ 16`) at the
field width — 9 bits, or 11 for `JSR` — placed in the offset field, with
assembly failing exactly when the width check fails; `LDR`/`STR` literal
offsets are width-checked at 6 bits; and the `BRnzp` line of scenario S2
assembles to the word `0x0FFE` (offset `−2` encoded as `0x1FE`). -/
theorem pc_relative_encoding (pgm : Program) (l : String) (a loc : Nat)
    (lb : Option String) (n z p : Bool) (r b : Register)
    (ha : lookupLabel pgm.labels l = some a) (ha16 : a < 65536) (hloc : loc < 65536) :
    (assemble_code_line pgm ⟨lb, .Operation (.Br n z p (.Label l)), loc⟩
      = (truncate 9 (spec_pc_offset a loc)).map fun t =>
          [(Opcode.Br.to_int <<< 12)
            ||| ((if ((cond n 4 0) ||| (cond z 2 0) ||| (cond p 1 0)) = 0 then 0b111
                  else (cond n 4 0) ||| (cond z 2 0) ||| (cond p 1 0)) <<< 9) ||| t])
    ∧ (assemble_code_line pgm ⟨lb, .Operation (.Jsr (.Label l)), loc⟩
      = (truncate 11 (spec_pc_offset a loc)).map fun t =>
          [(Opcode.Jsr.to_int <<< 12) ||| (1 <<< 11) ||| t])
    ∧ (assemble_code_line pgm ⟨lb, .Operation (.Ld r (.Label l)), loc⟩
      = (truncate 9 (spec_pc_offset a loc)).map fun t =>
          [(Opcode.Ld.to_int <<< 12) ||| (r.val <<< 9) ||| t])
    ∧ (assemble_code_line pgm ⟨lb, .Operation (.Ldi r (.Label l)), loc⟩
      = (truncate 9 (spec_pc_offset a loc)).map fun t =>
          [(Opcode.Ldi.to_int <<< 12) ||| (r.val <<< 9) ||| t])
    ∧ (assemble_code_line pgm ⟨lb, .Operation (.Lea r (.Label l)), loc⟩
      = (truncate 9 (spec_pc_offset a loc)).map fun t =>
          [(Opcode.Lea.to_int <<< 12) ||| (r.val <<< 9) ||| t])
    ∧ (assemble_code_line pgm ⟨lb, .Operation (.St r (.Label l)), loc⟩
      = (truncate 9 (spec_pc_offset a loc)).map fun t =>
          [(Opcode.St.to_int <<< 12) ||| (r.val <<< 9) ||| t])
    ∧ (assemble_code_line pgm ⟨lb, .Operation (.Sti r (.Label l)), loc⟩
      = (truncate 9 (spec_pc_offset a loc)).map fun t =>
          [(Opcode.Sti.to_int <<< 12) ||| (r.val <<< 9) ||| t])
    ∧ (∀ offset, assemble_code_line pgm ⟨lb, .Operation (.Ldr r b offset), loc⟩
      = (truncate 6 offset).map fun t =>
          [(Opcode.Ldr.to_int <<< 12) ||| (r.val <<< 9) ||| (b.val <<< 6) ||| t])
    ∧ (∀ offset, assemble_code_line pgm ⟨lb, .Operation (.Str r b offset), loc⟩
      = (truncate 6 offset).map fun t =>
          [(Opcode.Str.to_int <<< 12) ||| (r.val <<< 9) ||| (b.val <<< 6) ||| t])
    ∧ (Parser.parse s2_tokens).bind assemble = .ok [0x3000, 0x5020, 0x1021, 0x0FFE] := by
  have hw : wrapping_sub (wrapping_sub a loc) 1 = spec_pc_offset a loc := by
    unfold wrapping_sub spec_pc_offset
    omega
  have hlab : resolve_label pgm l = .ok a := by simp [resolve_label, ha]
  have hrel : resolve_location_relative pgm (.Label l) loc = .ok (spec_pc_offset a loc) := by
    show (resolve_label pgm l).bind
        (fun x => Except.ok (wrapping_sub (wrapping_sub x loc) 1)) = _
    rw [hlab]
    show Except.ok (wrapping_sub (wrapping_sub a loc) 1) = _
    rw [hw]
  refine ⟨?_, ?_, ?_, ?_, ?_, ?_, ?_, ?_, ?_, ?_⟩
  · exact bind_resolve_truncate pgm (.Label l) loc 9 _ hrel _
  · exact bind_resolve_truncate pgm (.Label l) loc 11 _ hrel _
  · exact bind_resolve_truncate pgm (.Label l) loc 9 _ hrel _
  · exact bind_resolve_truncate pgm (.Label l) loc 9 _ hrel _
  · exact bind_resolve_truncate pgm (.Label l) loc 9 _ hrel _
  · exact bind_resolve_truncate pgm (.Label l) loc 9 _ hrel _
  · exact bind_resolve_truncate pgm (.Label l) loc 9 _ hrel _
  · exact fun offset => bind_truncate_map 6 offset _
  · exact fun offset => bind_truncate_map 6 offset _
  · decide

/-- Witness for `pc_relative_encoding`: the S2 label map, with `LOOP` at
`0x3001` referenced from the `BR` at `0x3002`. -/
theorem pc_relative_encoding_witness :
    (lookupLabel [("LOOP", 0x3001)] "LOOP" = some 0x3001
      ∧ (0x3001 : Nat) < 65536 ∧ (0x3002 : Nat) < 65536)
    ∧ assemble_code_line ⟨0x3000, [], [("LOOP", 0x3001)]⟩
        ⟨none, .Operation (.Br true true true (.Label "LOOP")), 0x3002⟩
        = (truncate 9 (spec_pc_offset 0x3001 0x3002)).map fun t =>
            [(Opcode.Br.to_int <<< 12)
              ||| ((if ((cond true 4 0) ||| (cond true 2 0) ||| (cond true 1 0)) = 0 then 0b111
                    else (cond true 4 0) ||| (cond true 2 0) ||| (cond true 1 0)) <<< 9) ||| t] :=
  ⟨by refine ⟨?_, ?_, ?_⟩ <;> decide,
   (pc_relative_encoding ⟨0x3000, [], [("LOOP", 0x3001)]⟩ "LOOP" 0x3001 0x3002
      none true true true ⟨0⟩ ⟨0⟩ (by decide) (by decide) (by decide)).1⟩

/-- Escape processing is the identity on a run of `'A'` bytes. -/
theorem process_escapes_replicate (k : Nat) :
    process_escapes (List.replicate k 65) false = List.replicate k 65 := by
  induction k with
  | zero => rfl
  | succ k ih => simp [List.replicate_succ, process_escapes, ih]

/-- The raw slice of a `.STRINGZ` string token holding 65533 `'A'`s
between its quotes. -/
def big_string_token : List Nat := 34 :: (List.replicate 65533 65 ++ [34])

/-- The processed bytes of `big_string_token`: the 65533 `'A'`s plus the
trailing NUL. -/
theorem stringz_chars_big :
    stringz_chars big_string_token = List.replicate 65533 65 ++ [0] := by
  have hgen : ∀ (x y : Nat) (l : List Nat), ((x :: (l ++ [y])).drop 1).dropLast = l := by
    intro x y l
    simp
  unfold stringz_chars big_string_token
  rw [hgen, process_escapes_replicate]

/-- C7 (counterexample).  The 65533-character string of `big_string_token`
has a byte representation of `0xFFFE` bytes including the trailing NUL, so
the claim says parsing it must fail; the source accepts it (its threshold
is `0xFFFF`, not `0xFFFE`). -/
theorem stringz_threshold_counterexample :
    0xFFFE ≤ (stringz_chars big_string_token).length
    ∧ Parser.parse_string [Token.String big_string_token]
        = .ok (some (stringz_chars big_string_token), []) := by
  have hlen : (stringz_chars big_string_token).length = 65534 := by
    rw [stringz_chars_big]
    rw [List.length_append, List.length_replicate]
    rfl
  constructor
  · rw [hlen]
  · simp only [Parser.parse_string, hlen]
    norm_num

/-- C7 (amended): `parse_string` on a string token fails exactly when the
processed byte representation including the trailing NUL has `0xFFFF` or
more bytes; every shorter string is accepted verbatim, and it contributes
one memory word per byte — the assembler emits its bytes one word each and
the location counter advances by its length, NUL included. -/
theorem parse_string_length_spec (s : List Nat) (rest : List Token) :
    (is_ok (Parser.parse_string (Token.String s :: rest)) = false
      ↔ 0xFFFF ≤ (stringz_chars s).length)
    ∧ ((stringz_chars s).length < 0xFFFF →
        Parser.parse_string (Token.String s :: rest) = .ok (some (stringz_chars s), rest))
    ∧ (∀ (pgm : Program) (lb : Option String) (loc : Nat),
        assemble_code_line pgm ⟨lb, .PseudoOp (.Stringz (stringz_chars s)), loc⟩
          = .ok (stringz_chars s))
    ∧ location_increment (.PseudoOp (.Stringz (stringz_chars s)))
        = (stringz_chars s).length := by
  refine ⟨?_, ?_, fun _ _ _ => rfl, rfl⟩
  · simp only [Parser.parse_string]
    split_ifs with h <;> simp [is_ok, h]
  · intro h
    simp only [Parser.parse_string]
    rw [if_neg (by omega)]

/-- Witness for `parse_string_length_spec`: the token of `"hi"` parses to
`[104, 105, 0]`. -/
theorem parse_string_length_spec_witness :
    (stringz_chars [34, 104, 105, 34]).length < 0xFFFF
    ∧ Parser.parse_string [Token.String [34, 104, 105, 34]]
        = .ok (some (stringz_chars [34, 104, 105, 34]), []) :=
  ⟨by decide, (parse_string_length_spec [34, 104, 105, 34] []).2.1 (by decide)⟩

/-- Binding a failed `Except` computation fails. -/
theorem except_bind_error {α β : Type} (e : String) (f : α → Except String β) :
    ((Except.error e : Except String α) >>= f) = Except.error e := rfl

/-- Binding a successful `Except` computation applies the continuation. -/
theorem except_bind_ok {α β : Type} (a : α) (f : α → Except String β) :
    ((Except.ok a : Except String α) >>= f) = f a := rfl

/-- `parse_code_line` stamps the line with the entry location counter and
leaves the location counter and the label map unchanged (its helpers only
consume tokens). -/
theorem parse_code_line_ok (s : PState) (line : CodeLine) (s1 : PState)
    (h : Parser.parse_code_line s = .ok (line, s1)) :
    line.location = s.location_cursor ∧ s1.location_cursor = s.location_cursor
      ∧ s1.labels = s.labels := by
  unfold Parser.parse_code_line at h
  rcases hpl : Parser.parse_label s.tokens with ⟨label, ts⟩
  rw [hpl] at h
  simp only [] at h
  rcases hpi : Parser.parse_instruction ts with e | ⟨oi, ts2⟩
  · rw [hpi] at h
    exact absurd h (by simp)
  · rw [hpi] at h
    rcases oi with _ | i
    · exact absurd h (by simp)
    · simp only [Except.ok.injEq, Prod.mk.injEq] at h
      obtain ⟨h1, h2⟩ := h
      subst h1 h2
      exact ⟨rfl, rfl, rfl⟩

/-- C6: in every successful run of the parsing loop, every line's location
counter advanced past that line (by its word size) stays strictly below
`0xFE00` — so the cursor never reaches device register space and never
wraps 16 bits — and the lines' locations are consecutive cursors: the
first line sits at the entry cursor and each next line at the previous
line's location plus its increment. -/
theorem location_cursor_bound (fuel : Nat) :
    ∀ (s : PState) (lines : List CodeLine) (sf : PState),
      Parser.parse_lines fuel s = .ok (lines, sf) →
      (∀ line ∈ lines, line.location + location_increment line.instruction < 0xFE00)
      ∧ (∀ l0, lines.head? = some l0 → l0.location = s.location_cursor)
      ∧ lines.Chain' (fun l1 l2 =>
          l2.location = l1.location + location_increment l1.instruction) := by
  induction fuel with
  | zero =>
    intro s lines sf h
    exact absurd h (by simp [Parser.parse_lines])
  | succ fuel ih =>
    intro s lines sf h
    rw [Parser.parse_lines] at h
    rcases hcl : Parser.parse_code_line s with e | ⟨line, s1⟩
    · rw [hcl, except_bind_error] at h
      exact Except.noConfusion h
    · rw [hcl, except_bind_ok] at h
      obtain ⟨hloc, hcur, -⟩ := parse_code_line_ok s line s1 hcl
      simp only [] at h
      split at h
      · -- `.END`: the loop stops with no more lines
        simp only [Except.ok.injEq, Prod.mk.injEq] at h
        obtain ⟨h1, h2⟩ := h
        subst h2
        simp [← h1]
      · -- an ordinary line: the cursor checks guard the recursive call
        split at h
        · exact Except.noConfusion h
        · split at h
          · exact Except.noConfusion h
          · rename_i hn1 hn2
            rcases hr : Parser.parse_lines fuel
                { s1 with
                  location_cursor :=
                    s1.location_cursor + location_increment line.instruction
                  labels := match line.label with
                            | some label => (label, line.location) :: s1.labels
                            | none => s1.labels } with e2 | ⟨lines2, s2⟩
            · rw [hr, except_bind_error] at h
              exact Except.noConfusion h
            · rw [hr, except_bind_ok] at h
              simp only [Except.ok.injEq, Prod.mk.injEq] at h
              obtain ⟨h1, h2⟩ := h
              subst h2
              obtain ⟨ihb, ihh, ihc⟩ := ih _ _ _ hr
              subst h1
              refine ⟨?_, ?_, ?_⟩
              · intro li hmem
                rcases List.mem_cons.mp hmem with hli | hli
                · subst hli
                  omega
                · exact ihb li hli
              · intro l0 h0
                simp only [List.head?_cons, Option.some.injEq] at h0
                subst h0
                omega
              · refine List.chain'_cons'.mpr ⟨?_, ihc⟩
                intro y hy
                have := ihh y hy
                simp only [] at this
                omega

/-- The post-`.ORIG` parser state of scenario S1 (cursor at the origin
`0x3000`). -/
def c6_state : PState :=
  { tokens := [.Add, .Register 0, .Separator, .Register 0, .Separator, .Number 1,
               .Halt, .End]
    location_cursor := 0x3000
    labels := [] }

/-- The lines the S1 loop produces. -/
def c6_lines : List CodeLine :=
  [⟨none, .Operation (.Add ⟨0⟩ (.Immediate 1) ⟨0⟩), 0x3000⟩,
   ⟨none, .Trap .Halt, 0x3001⟩]

/-- The final parser state of the S1 loop. -/
def c6_final : PState := { tokens := [], location_cursor := 0x3002, labels := [] }

/-- The first parsed S1 line. -/
def c6_line0 : CodeLine := ⟨none, .Operation (.Add ⟨0⟩ (.Immediate 1) ⟨0⟩), 0x3000⟩

/-- Witness for `location_cursor_bound` on the S1 loop. -/
theorem location_cursor_bound_witness :
    Parser.parse_lines 9 c6_state = .ok (c6_lines, c6_final)
    ∧ c6_line0.location + location_increment c6_line0.instruction < 0xFE00 :=
  ⟨by decide,
   (location_cursor_bound 9 c6_state c6_lines c6_final (by decide)).1 c6_line0 (by decide)⟩

end Alic3
